import Mathlib

/-!
# Verification of the crlset.js trust pipeline

A shallow embedding, in Lean 4, of the core of the `crlset.js` library:

* `unpackCrx` / `processCrx` / `parseCRLSet` / `parseCRLSetHeader`
  (from `src/parser.ts`),
* `verifySignature` / `findCrlSetKey` / `crxIdToHex` (from `src/verify.ts`),
* the `CRLSet` class and `loadLatestCRLSet` (from `src/crlset.ts`).

Byte buffers (`Buffer`) are modelled as `List Nat` (each element a byte
value), JavaScript strings as `List Char`.  External collaborators that the
library only calls through a narrow interface (protobuf decoding, ZIP entry
extraction, SHA-256, RSA/ECDSA verification, base64 codec, JSON parsing, the
two network fetches and the wall clock) are gathered into an `Externals`
record and passed explicitly; every piece of control flow of the library
itself is translated from the TypeScript source.

JavaScript exceptions are modelled with `Except JsError`; each `JsError`
constructor corresponds to one distinct `throw` site (or one distinct kind
of runtime error) reachable from the embedded code.
-/

/-- JavaScript strings are modelled as lists of characters. -/
abbrev Str := List Char

/-- Byte buffers (`Buffer`) are modelled as lists of byte values. -/
abbrev Bytes := List Nat

/-- `String.prototype.toLowerCase()`, restricted to the ASCII range (the
inputs of interest are hex strings). -/
def toLowerCase (s : Str) : Str := s.map Char.toLower

/-- One distinct error per `throw` site (or runtime error kind) reachable
from the embedded functions.  The JS code throws `new Error(msg)` with a
distinct message at each site. -/
inductive JsError where
  /-- `Invalid CRX magic: expected Cr24, got ...` -/
  | invalidMagic
  /-- `Unsupported CRX version: expected 3, got ...` -/
  | unsupportedVersion
  /-- `Invalid CRX header: header length exceeds file size.` -/
  | invalidHeaderLength
  /-- Node `RangeError [ERR_OUT_OF_RANGE]` from `Buffer.readUInt32LE` when
  the read would run past the end of the buffer. -/
  | rangeError
  /-- Failure of the external protobuf decoder `CrxHeader.decode`. -/
  | protoDecodeError
  /-- `CRX archive does not contain a CRLSet file.` -/
  | noCrlSetEntry
  /-- `CRX signature verification failed: signedHeaderData is missing.` -/
  | missingSignedData
  /-- `CRX signature verification failed: no valid publicKey for the CRLSet
  component found.` -/
  | noMatchingKey
  /-- `CRX signature verification failed.` (verifier returned `false`) -/
  | signatureVerificationFailed
  /-- `CRLSet file is truncated (at header length).` -/
  | truncatedHeaderLength
  /-- `CRLSet file is truncated (at header content).` -/
  | truncatedHeaderContent
  /-- `CRLSet file is truncated (at SPKI hash).` -/
  | truncatedSpkiHash
  /-- `CRLSet file is truncated (at serial count).` -/
  | truncatedSerialCount
  /-- `CRLSet file is truncated (at serial length).` -/
  | truncatedSerialLength
  /-- `CRLSet file is truncated (at serial number).` -/
  | truncatedSerialNumber
  /-- Failure of the external `JSON.parse` on the CRLSet header bytes. -/
  | jsonParseError
  deriving DecidableEq, Repr

/-- `header.readUInt16LE(off)`: little-endian 16-bit read.  Node throws a
`RangeError` when fewer than 2 bytes remain, modelled by `none`. -/
def readUInt16LE (b : Bytes) (off : Nat) : Option Nat :=
  if off + 2 ≤ b.length then some (b.getD off 0 + 256 * b.getD (off + 1) 0) else none

/-- `buffer.readUInt32LE(off)`: little-endian 32-bit read.  Node throws a
`RangeError` when fewer than 4 bytes remain, modelled by `none`. -/
def readUInt32LE (b : Bytes) (off : Nat) : Option Nat :=
  if off + 4 ≤ b.length then
    some (b.getD off 0 + 256 * b.getD (off + 1) 0 + 65536 * b.getD (off + 2) 0
      + 16777216 * b.getD (off + 3) 0)
  else none

/-- The value of an in-bounds little-endian 16-bit read (used where the
source has already bounds-checked, so the Node read cannot throw). -/
def u16val (b : Bytes) (off : Nat) : Nat :=
  b.getD off 0 + 256 * b.getD (off + 1) 0

/-- The value of an in-bounds little-endian 32-bit read (used where the
source has already bounds-checked, so the Node read cannot throw). -/
def u32val (b : Bytes) (off : Nat) : Nat :=
  b.getD off 0 + 256 * b.getD (off + 1) 0 + 65536 * b.getD (off + 2) 0
    + 16777216 * b.getD (off + 3) 0

/-- `buffer.writeUInt32LE(n)` into a fresh 4-byte buffer. -/
def u32leBytes (n : Nat) : Bytes :=
  [n % 256, n / 256 % 256, n / 65536 % 256, n / 16777216 % 256]

/-- One lowercase hexadecimal digit character (`0`-`9`, `a`-`f`). -/
def hexDigit (n : Nat) : Char :=
  if n < 10 then Char.ofNat (48 + n) else Char.ofNat (87 + n)

/-- The two-character lowercase hex encoding of one byte (Node pads each
byte to two digits in `toString('hex')` / `digest('hex')`). -/
def byteHex (n : Nat) : Str := [hexDigit (n / 16 % 16), hexDigit (n % 16)]

/-- `buffer.toString('hex')`: lowercase hex encoding of a byte buffer. -/
def bytesToHex (b : Bytes) : Str := (b.map byteHex).flatten

/-- `buffer.toString('ascii', start, end)`: Node decodes each byte with the
high bit cleared (value taken modulo 128). -/
def asciiSlice (b : Bytes) (start stop : Nat) : Str :=
  ((b.drop start).take (stop - start)).map (fun x => Char.ofNat (x % 128))

/-- JS `Set<string>` is modelled as a duplicate-free list in insertion
order; `Set.prototype.add` appends only when the element is new. -/
def setAdd (s : List Str) (x : Str) : List Str :=
  if s.contains x then s else s ++ [x]

/-- JS `Map<string, Set<string>>` is modelled as an association list in
insertion order. -/
abbrev RevMap := List (Str × List Str)

/-- `Map.prototype.get`. -/
def mapGet : RevMap → Str → Option (List Str)
  | [], _ => none
  | (k', v) :: rest, k => if k' = k then some v else mapGet rest k

/-- `Map.prototype.set`: replaces the value of an existing key in place,
otherwise appends a new binding. -/
def mapSet : RevMap → Str → List Str → RevMap
  | [], k, v => [(k, v)]
  | (k', v') :: rest, k, v =>
    if k' = k then (k, v) :: rest else (k', v') :: mapSet rest k v

/-- The parsed JSON header of a CRLSet (interface `CRLSetHeader` in
`src/interfaces.ts`).  Numeric JSON fields are modelled as integers. -/
structure CRLSetHeader where
  Version : Int
  ContentType : Str
  Sequence : Int
  DeltaFrom : Int
  NumParents : Int
  BlockedSPKIs : List Str
  KnownInterceptionSPKIs : List Str
  BlockedInterceptionSPKIs : List Str
  NotAfter : Int
  deriving DecidableEq, Repr

/-- Enum `RevocationStatus` from `src/interfaces.ts`. -/
inductive RevocationStatus where
  | OK
  | REVOKED_BY_SPKI
  | REVOKED_BY_SERIAL
  deriving DecidableEq, Repr

/-- The `CRLSet` class state (`src/crlset.ts`): the four fields assigned by
the constructor.  `revocations` is keyed by lowercase-hex SPKI hash;
`blockedSpkis` is a set of lowercase-hex hashes. -/
structure CRLSet where
  header : CRLSetHeader
  sequence : Int
  revocations : RevMap
  blockedSpkis : List Str
  deriving DecidableEq, Repr

/-- `CRLSet.isRevokedBySPKI` (`src/crlset.ts`, lines 51-53):
`this.blockedSpkis.has(spkiHash.toLowerCase())`. -/
def CRLSet.isRevokedBySPKI (c : CRLSet) (spkiHash : Str) : Bool :=
  c.blockedSpkis.contains (toLowerCase spkiHash)

/-- `CRLSet.isRevokedBySerial` (`src/crlset.ts`, lines 63-69). -/
def CRLSet.isRevokedBySerial (c : CRLSet) (spkiHash serialNumber : Str) : Bool :=
  match mapGet c.revocations (toLowerCase spkiHash) with
  | none => false
  | some serials => serials.contains (toLowerCase serialNumber)

/-- `CRLSet.check` (`src/crlset.ts`, lines 35-43). -/
def CRLSet.check (c : CRLSet) (spkiHash serialNumber : Str) : RevocationStatus :=
  if c.isRevokedBySPKI spkiHash then RevocationStatus.REVOKED_BY_SPKI
  else if c.isRevokedBySerial spkiHash serialNumber then RevocationStatus.REVOKED_BY_SERIAL
  else RevocationStatus.OK

/-- `CRX_MAGIC` from `src/constants.ts`. -/
def CRX_MAGIC : Str := ['C', 'r', '2', '4']

/-- `CRLSET_APP_ID` from `src/constants.ts`: the Omaha component id of the
CRLSet component. -/
def CRLSET_APP_ID : Str := "hfnkpimlhhgieaddgfemjhofmfblmnib".data

/-- Modelled from the spec: `SIGNED_DATA_PREFIX`, the "fixed,
format-defined prefix constant" of the signed message (§4.2); the constant
itself lives in `src/constants.ts`, which is not among the provided source
files.  Its value is the CRX3 signed-data prefix, the ASCII bytes of
`"CRX3 SignedData\x00"`. -/
def SIGNED_DATA_PREFIX : Bytes :=
  [67, 82, 88, 51, 32, 83, 105, 103, 110, 101, 100, 68, 97, 116, 97, 0]

/-- One `AsymmetricKeyProof` of the CRX3 protobuf header, as produced by
`CrxHeader.decode(...).toJSON()`: base64 strings. -/
structure AsymmetricKeyProof where
  publicKey : Str
  signature : Str
  deriving DecidableEq, Repr

/-- The decoded CRX3 protobuf header (interface `CrxFileHeader`).
`signedHeaderData` is `none` when the field is absent; the JS falsiness
test `!header.signedHeaderData` (and protobuf's JSON conversion, which
omits defaulted fields) identifies an empty string with absence, so the
empty case is folded into `none`. -/
structure CrxFileHeader where
  sha256WithRsa : List AsymmetricKeyProof
  sha256WithEcdsa : List AsymmetricKeyProof
  signedHeaderData : Option Str
  deriving DecidableEq, Repr

/-- The external collaborators of the core (§6 of the spec): protobuf
decoding, ZIP extraction, crypto primitives, base64 codec, JSON parsing
and the two network fetches.  Partial functions model collaborators whose
failure the core observes as an exception. -/
structure Externals where
  /-- `CrxHeader.decode(bytes).toJSON()` (protobufjs); `none` models a
  decode exception. -/
  protoDecode : Bytes → Option CrxFileHeader
  /-- `new AdmZip(zip).getEntry('crl-set')?.getData()`; `none` models a
  missing entry. -/
  zipGetEntry : Bytes → Option Bytes
  /-- `createHash('sha256').update(bytes).digest()`. -/
  sha256 : Bytes → Bytes
  /-- `createVerify('sha256').update(msg).verify(pemKey, signature)`. -/
  cryptoVerify : Str → Bytes → Bytes → Bool
  /-- `Buffer.from(s, 'base64')` (total and lenient in Node). -/
  base64dec : Str → Bytes
  /-- `buffer.toString('base64')`. -/
  base64enc : Bytes → Str
  /-- UTF-8 decoding plus `JSON.parse`, shaped into a `CRLSetHeader`;
  `none` models a parse exception. -/
  jsonParse : Bytes → Option CRLSetHeader
  /-- The bytes produced by `downloadLatestCRLSetCrx()` (`src/fetch.ts`). -/
  download : Bytes
  /-- The header produced by `fetchRemoteHeader()` (`src/fetch.ts`). -/
  remoteHeader : CRLSetHeader

/-- `unpackCrx` (`src/parser.ts`, lines 17-45): validates the CRX magic,
version and header length, protobuf-decodes the header-proof region
`[12, 12+headerLen)` and returns it with the payload region
`[12+headerLen, end)`. -/
def unpackCrx (ext : Externals) (crxBuffer : Bytes) :
    Except JsError (CrxFileHeader × Bytes) :=
  let magic := asciiSlice crxBuffer 0 4
  if magic ≠ CRX_MAGIC then .error .invalidMagic
  else
    match readUInt32LE crxBuffer 4 with
    | none => .error .rangeError
    | some version =>
      if version ≠ 3 then .error .unsupportedVersion
      else
        match readUInt32LE crxBuffer 8 with
        | none => .error .rangeError
        | some headerLen =>
          let zipOffset := 12 + headerLen
          if zipOffset > crxBuffer.length then .error .invalidHeaderLength
          else
            let protoHeaderBuffer := (crxBuffer.drop 12).take headerLen
            match ext.protoDecode protoHeaderBuffer with
            | none => .error .protoDecodeError
            | some header => .ok (header, crxBuffer.drop zipOffset)

/-- JS `Number.prototype.toString(16)` for a natural number: lowercase hex
digits, no padding, `"0"` for zero. -/
def natHexStr (n : Nat) : Str := Nat.toDigits 16 n

/-- JS `Number.prototype.toString(16)` for an integer (negative numbers
render with a leading minus sign). -/
def jsHexString (i : Int) : Str :=
  if i < 0 then '-' :: natHexStr i.natAbs else natHexStr i.toNat

/-- `crxIdToHex` (`src/verify.ts`, lines 83-88): maps each character `c`
of the app id to `(charCode(c) - charCode('a')).toString(16)` and joins. -/
def crxIdToHex (appId : Str) : Str :=
  (appId.map (fun c => jsHexString ((c.toNat : Int) - 97))).flatten

/-- `asPemKey` (`src/utils/crypto.ts`): wraps raw key bytes in a PEM
envelope. -/
def asPemKey (ext : Externals) (key : Bytes) : Str :=
  "-----BEGIN PUBLIC KEY-----\n".data ++ ext.base64enc key
    ++ "\n-----END PUBLIC KEY-----".data

/-- The loop body of `findCrlSetKey`: scan the proofs in order, returning
the first whose SHA-256 key-hash prefix (32 hex chars) equals the expected
id. -/
def findKeyLoop (ext : Externals) (expectedId : Str) :
    List AsymmetricKeyProof → Option (Bytes × Bytes)
  | [] => none
  | proof :: rest =>
    let publicKey := ext.base64dec proof.publicKey
    let hash := bytesToHex (ext.sha256 publicKey)
    let id := hash.take 32
    if id = expectedId then some (publicKey, ext.base64dec proof.signature)
    else findKeyLoop ext expectedId rest

/-- `findCrlSetKey` (`src/verify.ts`, lines 54-71): scans
`[...header.sha256WithRsa, ...header.sha256WithEcdsa]` for the proof whose
key hash matches `crxIdToHex(CRLSET_APP_ID)`; `none` models the
`{publicKey: undefined, signature: undefined}` result. -/
def findCrlSetKey (ext : Externals) (header : CrxFileHeader) :
    Option (Bytes × Bytes) :=
  findKeyLoop ext (crxIdToHex CRLSET_APP_ID)
    (header.sha256WithRsa ++ header.sha256WithEcdsa)

/-- `verifySignature` (`src/verify.ts`, lines 22-43), named
`verifyCrxSignature` at its import site in `src/parser.ts`. -/
def verifySignature (ext : Externals) (header : CrxFileHeader)
    (zipBuffer : Bytes) : Except JsError Bool :=
  match header.signedHeaderData with
  | none => .error .missingSignedData
  | some shd =>
    match findCrlSetKey ext header with
    | none => .error .noMatchingKey
    | some (publicKey, signature) =>
      let signedHeaderDataBuffer := ext.base64dec shd
      let sizeBuffer := u32leBytes signedHeaderDataBuffer.length
      let dataToVerify :=
        SIGNED_DATA_PREFIX ++ sizeBuffer ++ signedHeaderDataBuffer ++ zipBuffer
      .ok (ext.cryptoVerify (asPemKey ext publicKey) dataToVerify signature)

/-- `parseCRLSetHeader` (`src/parser.ts`, lines 132-143): bounds-checks the
2-byte length prefix, then the JSON header content, then parses it. -/
def parseCRLSetHeader (jsonParse : Bytes → Option CRLSetHeader)
    (crlSetBuffer : Bytes) : Except JsError CRLSetHeader :=
  if crlSetBuffer.length < 2 then .error .truncatedHeaderLength
  else
    let headerLen := u16val crlSetBuffer 0
    if crlSetBuffer.length < 2 + headerLen then .error .truncatedHeaderContent
    else
      match jsonParse ((crlSetBuffer.drop 2).take headerLen) with
      | none => .error .jsonParseError
      | some header => .ok header

/-- The inner serial loop of `parseCRLSet` (`src/parser.ts`, lines
102-115): reads `count` length-prefixed serials starting at `off`,
accumulating them into the set `acc`; returns the final offset and set. -/
def parseSerials (b : Bytes) : Nat → Nat → List Str →
    Except JsError (Nat × List Str)
  | off, 0, acc => .ok (off, acc)
  | off, count + 1, acc =>
    if off + 1 > b.length then .error .truncatedSerialLength
    else
      let serialLen := b.getD off 0
      if off + 1 + serialLen > b.length then .error .truncatedSerialNumber
      else
        let serial := bytesToHex ((b.drop (off + 1)).take serialLen)
        parseSerials b (off + 1 + serialLen) count (setAdd acc serial)

/-- The outer parent loop of `parseCRLSet` (`src/parser.ts`, lines
87-117): reads `count` revocation-table entries starting at `off`,
installing each into the map `acc` with `Map.prototype.set`. -/
def parseEntries (b : Bytes) : Nat → Nat → RevMap → Except JsError RevMap
  | _, 0, acc => .ok acc
  | off, count + 1, acc =>
    if off + 32 > b.length then .error .truncatedSpkiHash
    else
      let spkiHash := bytesToHex ((b.drop off).take 32)
      if off + 32 + 4 > b.length then .error .truncatedSerialCount
      else
        let numSerials := u32val b (off + 32)
        match parseSerials b (off + 32 + 4) numSerials [] with
        | .error e => .error e
        | .ok (off', serials) => parseEntries b off' count (mapSet acc spkiHash serials)

/-- `parseCRLSet` (`src/parser.ts`, lines 77-120): parses the JSON header,
then `NumParents` revocation-table entries after it.  (The JS `for` loop
`for (let i = 0; i < header.NumParents; i++)` runs `NumParents.toNat`
times.) -/
def parseCRLSet (jsonParse : Bytes → Option CRLSetHeader)
    (crlSetBuffer : Bytes) : Except JsError (CRLSetHeader × RevMap) := do
  let header ← parseCRLSetHeader jsonParse crlSetBuffer
  let headerLen := u16val crlSetBuffer 0
  let revocations ← parseEntries crlSetBuffer (2 + headerLen) header.NumParents.toNat []
  return (header, revocations)

/-- `extractCrlSetFromZip` (`src/parser.ts`, lines 57-66). -/
def extractCrlSetFromZip (ext : Externals) (zipBuffer : Bytes) :
    Except JsError Bytes :=
  match ext.zipGetEntry zipBuffer with
  | none => .error .noCrlSetEntry
  | some data => .ok data

/-- `processCrx` (`src/parser.ts`, lines 153-168): unpack, optionally
verify, extract the `crl-set` entry, parse. -/
def processCrx (ext : Externals) (crxBuffer : Bytes) (verifySig : Bool) :
    Except JsError (CRLSetHeader × RevMap) := do
  let (crxHeader, zipBuffer) ← unpackCrx ext crxBuffer
  if verifySig then
    let isSignatureValid ← verifySignature ext crxHeader zipBuffer
    if !isSignatureValid then throw JsError.signatureVerificationFailed
  let crlSetBuffer ← extractCrlSetFromZip ext zipBuffer
  parseCRLSet ext.jsonParse crlSetBuffer

/-- The `CRLSet` constructor (`src/crlset.ts`, lines 17-22):
`blockedSpkis` is `new Set(header.BlockedSPKIs.map(spki =>
Buffer.from(spki, 'base64').toString('hex')))`. -/
def CRLSet.make (ext : Externals) (header : CRLSetHeader)
    (revocations : RevMap) : CRLSet :=
  { header := header
    sequence := header.Sequence
    revocations := revocations
    blockedSpkis :=
      (header.BlockedSPKIs.map (fun spki => bytesToHex (ext.base64dec spki))).foldl
        setAdd [] }

/-- The `updateStrategy` option of `loadLatestCRLSet`. -/
inductive UpdateStrategy where
  | always
  | onExpiry
  deriving DecidableEq, Repr

/-- Decidable equality for `Except`, so that concrete pipeline outcomes can
be compared by `decide`. -/
instance {ε α : Type} [DecidableEq ε] [DecidableEq α] :
    DecidableEq (Except ε α) := fun
  | .error a, .error b =>
    if h : a = b then .isTrue (by rw [h])
    else .isFalse (by intro hh; cases hh; exact h rfl)
  | .error _, .ok _ => .isFalse (by intro h; cases h)
  | .ok _, .error _ => .isFalse (by intro h; cases h)
  | .ok a, .ok b =>
    if h : a = b then .isTrue (by rw [h])
    else .isFalse (by intro hh; cases hh; exact h rfl)

/-- The observable outcome of one `loadLatestCRLSet` call: its
return/throw value, the cache cell afterwards, and how many times each of
the two network collaborators was invoked. -/
structure LoadOutcome where
  result : Except JsError CRLSet
  cache : Option CRLSet
  fullFetches : Nat
  headerFetches : Nat
  deriving DecidableEq, Repr

/-- The inner `fetchAndProcessNewSet` closure of `loadLatestCRLSet`
(`src/crlset.ts`, lines 113-118): one full download plus `processCrx`; on
success the cache cell is overwritten, on an exception it is left
unchanged. -/
def fetchAndProcessNewSet (ext : Externals) (verifySig : Bool)
    (cache : Option CRLSet) : LoadOutcome :=
  match processCrx ext ext.download verifySig with
  | .error e => { result := .error e, cache := cache, fullFetches := 1, headerFetches := 0 }
  | .ok (header, revocations) =>
    let s := CRLSet.make ext header revocations
    { result := .ok s, cache := some s, fullFetches := 1, headerFetches := 0 }

/-- `loadLatestCRLSet` (`src/crlset.ts`, lines 104-141) as a function of
the module-level cache cell `cachedCRLSet` and the current time
`now = Math.floor(Date.now() / 1000)`. -/
def loadLatestCRLSet (ext : Externals) (verifySig : Bool)
    (updateStrategy : UpdateStrategy) (now : Int) (cache : Option CRLSet) :
    LoadOutcome :=
  match cache with
  | none => fetchAndProcessNewSet ext verifySig none
  | some cached =>
    let isExpired := cached.header.NotAfter < now
    if isExpired then fetchAndProcessNewSet ext verifySig (some cached)
    else if updateStrategy = UpdateStrategy.onExpiry then
      { result := .ok cached, cache := some cached, fullFetches := 0, headerFetches := 0 }
    else
      let remoteHeader := ext.remoteHeader
      if remoteHeader.Sequence > cached.header.Sequence then
        let r := fetchAndProcessNewSet ext verifySig (some cached)
        { r with headerFetches := 1 }
      else
        { result := .ok cached, cache := some cached, fullFetches := 0, headerFetches := 1 }

/-! ## Sample data used to instantiate universally quantified theorems -/

/-- A concrete CRLSet header used for instantiations. -/
def sampleHeader : CRLSetHeader :=
  { Version := 0, ContentType := "CRLSet".data, Sequence := 5, DeltaFrom := 0,
    NumParents := 0, BlockedSPKIs := [], KnownInterceptionSPKIs := [],
    BlockedInterceptionSPKIs := [], NotAfter := 100 }

/-- A concrete CRLSet with one blocked SPKI (`"aa"`) and one revocation
entry (`"bb" ↦ {"01"}`). -/
def sampleCRLSet : CRLSet :=
  { header := sampleHeader, sequence := 5,
    revocations := [(['b', 'b'], [['0', '1']])],
    blockedSpkis := [['a', 'a']] }

/-- A concrete assignment of the external collaborators, used for
instantiations. -/
def sampleExt : Externals :=
  { protoDecode := fun _ => none
    zipGetEntry := fun _ => none
    sha256 := fun _ => []
    cryptoVerify := fun _ _ _ => true
    base64dec := fun _ => []
    base64enc := fun _ => []
    jsonParse := fun _ => none
    download := []
    remoteHeader := sampleHeader }

/-! ## C1: `check` / `isRevokedBySPKI` / `isRevokedBySerial` semantics -/

/-- C1.  For every `CRLSet` instance and every pair of hex strings,
`check(spkiHash, serialNumber)` is `REVOKED_BY_SPKI` iff the lower-cased
`spkiHash` is in `blockedSpkis` (whatever `serialNumber` is); otherwise it
is `REVOKED_BY_SERIAL` iff the lower-cased `spkiHash` is a key of
`revocations` whose set contains the lower-cased `serialNumber`; otherwise
it is `OK`; and when `spkiHash` is absent from `revocations`,
`isRevokedBySerial` returns `false` rather than failing. -/
theorem check_characterization (c : CRLSet) (spkiHash serialNumber : Str) :
    (c.check spkiHash serialNumber = RevocationStatus.REVOKED_BY_SPKI ↔
      toLowerCase spkiHash ∈ c.blockedSpkis) ∧
    (c.check spkiHash serialNumber = RevocationStatus.REVOKED_BY_SERIAL ↔
      (toLowerCase spkiHash ∉ c.blockedSpkis ∧
        ∃ serials, mapGet c.revocations (toLowerCase spkiHash) = some serials ∧
          toLowerCase serialNumber ∈ serials)) ∧
    (c.check spkiHash serialNumber = RevocationStatus.OK ↔
      (toLowerCase spkiHash ∉ c.blockedSpkis ∧
        ¬ ∃ serials, mapGet c.revocations (toLowerCase spkiHash) = some serials ∧
          toLowerCase serialNumber ∈ serials)) ∧
    (mapGet c.revocations (toLowerCase spkiHash) = none →
      c.isRevokedBySerial spkiHash serialNumber = false) := by
  have hspki : c.isRevokedBySPKI spkiHash = true ↔ toLowerCase spkiHash ∈ c.blockedSpkis := by
    simp [CRLSet.isRevokedBySPKI]
  have hserial : c.isRevokedBySerial spkiHash serialNumber = true ↔
      ∃ serials, mapGet c.revocations (toLowerCase spkiHash) = some serials ∧
        toLowerCase serialNumber ∈ serials := by
    unfold CRLSet.isRevokedBySerial
    cases hm : mapGet c.revocations (toLowerCase spkiHash) <;> simp [hm]
  refine ⟨?_, ?_, ?_, ?_⟩
  · unfold CRLSet.check
    by_cases h1 : c.isRevokedBySPKI spkiHash <;>
      by_cases h2 : c.isRevokedBySerial spkiHash serialNumber <;>
        simp_all
  · unfold CRLSet.check
    by_cases h1 : c.isRevokedBySPKI spkiHash <;>
      by_cases h2 : c.isRevokedBySerial spkiHash serialNumber <;>
        simp_all
  · unfold CRLSet.check
    by_cases h1 : c.isRevokedBySPKI spkiHash <;>
      by_cases h2 : c.isRevokedBySerial spkiHash serialNumber <;>
        simp_all
  · intro hm
    unfold CRLSet.isRevokedBySerial
    rw [hm]

/-- C1 witness: `isRevokedBySerial` on an issuer absent from `revocations`
returns `false` (instantiated at `sampleCRLSet`). -/
theorem check_characterization_witness :
    sampleCRLSet.isRevokedBySerial ['z'] ['0'] = false :=
  (check_characterization sampleCRLSet ['z'] ['0']).2.2.2 (by decide)

/-! ## C9: case-insensitivity of the query methods -/

/-- C9.  The results of `check`, `isRevokedBySPKI` and `isRevokedBySerial`
are invariant under changing the letter case of the inputs: any two
case-variants (inputs with equal lower-casings) give identical results. -/
theorem check_case_insensitive (c : CRLSet) (s s' n n' : Str)
    (hs : toLowerCase s = toLowerCase s')
    (hn : toLowerCase n = toLowerCase n') :
    c.check s n = c.check s' n' ∧
    c.isRevokedBySPKI s = c.isRevokedBySPKI s' ∧
    c.isRevokedBySerial s n = c.isRevokedBySerial s' n' := by
  unfold CRLSet.check CRLSet.isRevokedBySPKI CRLSet.isRevokedBySerial
  rw [hs, hn]
  exact ⟨rfl, rfl, rfl⟩

/-- C9 witness: the mixed-case variants `"Aa"`/`"aA"` and `"B"`/`"b"` give
identical results on `sampleCRLSet`. -/
theorem check_case_insensitive_witness :
    sampleCRLSet.check ['A', 'a'] ['B'] = sampleCRLSet.check ['a', 'A'] ['b'] ∧
    sampleCRLSet.isRevokedBySPKI ['A', 'a'] = sampleCRLSet.isRevokedBySPKI ['a', 'A'] ∧
    sampleCRLSet.isRevokedBySerial ['A', 'a'] ['B'] =
      sampleCRLSet.isRevokedBySerial ['a', 'A'] ['b'] :=
  check_case_insensitive sampleCRLSet ['A', 'a'] ['a', 'A'] ['B'] ['b']
    (by decide) (by decide)

/-! ## C5-C7: signature verifier -/

/-- The 16 bytes whose hex encoding is `crxIdToHex CRLSET_APP_ID`; used to
build a concrete matching proof. -/
def matchBytes : Bytes := [117, 218, 248, 203, 119, 104, 64, 51, 101, 76, 151, 229, 197, 27, 205, 129]

/-- Externals under which every public key hashes to `matchBytes`, so the
first proof of a header always matches the CRLSet component id. -/
def matchExt : Externals :=
  { sampleExt with sha256 := fun _ => matchBytes, base64dec := fun s => s.map Char.toNat }

/-- A concrete CRX header with one RSA proof and signed header data. -/
def matchHeader : CrxFileHeader :=
  { sha256WithRsa := [{ publicKey := ['k'], signature := ['s'] }],
    sha256WithEcdsa := [], signedHeaderData := some ['d'] }

/-- Whether one proof's derived key id (first 32 hex chars of the SHA-256
of its decoded public key) matches the CRLSet component id. -/
def proofMatches (ext : Externals) (p : AsymmetricKeyProof) : Bool :=
  (bytesToHex (ext.sha256 (ext.base64dec p.publicKey))).take 32
    == crxIdToHex CRLSET_APP_ID

/-- The scan of `findCrlSetKey` is `List.find?` of `proofMatches`. -/
theorem findKeyLoop_eq_find (ext : Externals) (l : List AsymmetricKeyProof) :
    findKeyLoop ext (crxIdToHex CRLSET_APP_ID) l =
      (l.find? (proofMatches ext)).map
        (fun p => (ext.base64dec p.publicKey, ext.base64dec p.signature)) := by
  induction l with
  | nil => rfl
  | cons p rest ih =>
    by_cases h : (bytesToHex (ext.sha256 (ext.base64dec p.publicKey))).take 32
        = crxIdToHex CRLSET_APP_ID
    · simp [findKeyLoop, proofMatches, h]
    · simp [findKeyLoop, proofMatches, h, ih]

/-- Taking the first `2 * k` characters of a hex encoding is the hex
encoding of the first `k` bytes. -/
theorem bytesToHex_take (k : Nat) (l : Bytes) :
    (bytesToHex l).take (2 * k) = bytesToHex (l.take k) := by
  induction l generalizing k with
  | nil => simp [bytesToHex]
  | cons x xs ih =>
    cases k with
    | zero => simp [bytesToHex]
    | succ k' =>
      have hx : bytesToHex (x :: xs)
          = hexDigit (x / 16 % 16) :: hexDigit (x % 16) :: bytesToHex xs := by
        simp [bytesToHex, byteHex]
      have h2 : 2 * (k' + 1) = 2 * k' + 1 + 1 := by ring
      rw [hx, h2]
      have hx' : bytesToHex ((x :: xs).take (k' + 1))
          = hexDigit (x / 16 % 16) :: hexDigit (x % 16) :: bytesToHex (xs.take k') := by
        simp [bytesToHex, byteHex]
      rw [List.take_succ_cons, List.take_succ_cons, hx']
      exact congrArg _ (congrArg _ (ih k'))

/-- C6.  Key discovery scans the RSA proofs then the ECDSA proofs in
order; each proof's derived id is SHA-256 of its raw public key bytes,
first 16 bytes hex-encoded (= first 32 hex characters); it is compared to
the component id converted character-by-character to hex nibbles
(`c - 'a'`); the first matching proof supplies the key/signature pair. -/
theorem findCrlSetKey_spec (ext : Externals) (header : CrxFileHeader) :
    (findCrlSetKey ext header =
      ((header.sha256WithRsa ++ header.sha256WithEcdsa).find? (proofMatches ext)).map
        (fun p => (ext.base64dec p.publicKey, ext.base64dec p.signature))) ∧
    (∀ bytes : Bytes, (bytesToHex bytes).take 32 = bytesToHex (bytes.take 16)) ∧
    crxIdToHex CRLSET_APP_ID = CRLSET_APP_ID.map (fun c => hexDigit (c.toNat - 97)) := by
  refine ⟨findKeyLoop_eq_find ext _, ?_, by decide⟩
  intro bytes
  have h : (32 : Nat) = 2 * 16 := by norm_num
  rw [h, bytesToHex_take]

/-- C5.  `verifySignature` throws the missing-signed-data error iff
`signedHeaderData` is absent; throws the no-matching-key error iff data is
present but no proof's derived key id matches; these are its only thrown
errors; and whenever a key is found it returns a boolean (a cryptographic
mismatch is the return value `false`, never an exception). -/
theorem verifySignature_errors (ext : Externals) (header : CrxFileHeader) (zip : Bytes) :
    (verifySignature ext header zip = .error .missingSignedData ↔
      header.signedHeaderData = none) ∧
    (verifySignature ext header zip = .error .noMatchingKey ↔
      (header.signedHeaderData ≠ none ∧ findCrlSetKey ext header = none)) ∧
    (∀ e, verifySignature ext header zip = .error e →
      e = .missingSignedData ∨ e = .noMatchingKey) ∧
    (∀ shd pk sig, header.signedHeaderData = some shd →
      findCrlSetKey ext header = some (pk, sig) →
      ∃ result : Bool, verifySignature ext header zip = .ok result) := by
  unfold verifySignature
  cases hshd : header.signedHeaderData with
  | none => simp
  | some shd =>
    cases hk : findCrlSetKey ext header with
    | none => simp
    | some pr =>
      cases pr with
      | mk pk sig => simp

/-- C5 witness: with a present `signedHeaderData` and a matching key, the
function returns a boolean. -/
theorem verifySignature_errors_witness :
    ∃ result : Bool, verifySignature matchExt matchHeader [] = .ok result :=
  (verifySignature_errors matchExt matchHeader []).2.2.2 ['d'] [107] [115]
    (by decide) (by decide)

/-- C7.  The message handed to the cryptographic verifier is exactly
`SIGNED_DATA_PREFIX ++ (4-byte LE length of signedHeaderData) ++
signedHeaderData ++ payload`. -/
theorem verifySignature_message (ext : Externals) (header : CrxFileHeader)
    (zip : Bytes) (shd : Str) (pk sig : Bytes)
    (hshd : header.signedHeaderData = some shd)
    (hk : findCrlSetKey ext header = some (pk, sig)) :
    verifySignature ext header zip =
      .ok (ext.cryptoVerify (asPemKey ext pk)
        (SIGNED_DATA_PREFIX ++ u32leBytes (ext.base64dec shd).length
          ++ ext.base64dec shd ++ zip) sig) := by
  unfold verifySignature
  rw [hshd, hk]

/-- C7 witness at a concrete header, externals and payload. -/
theorem verifySignature_message_witness :
    verifySignature matchExt matchHeader [9] =
      .ok (matchExt.cryptoVerify (asPemKey matchExt [107])
        (SIGNED_DATA_PREFIX ++ u32leBytes (matchExt.base64dec ['d']).length
          ++ matchExt.base64dec ['d'] ++ [9]) [115]) :=
  verifySignature_message matchExt matchHeader [9] ['d'] [107] [115]
    (by decide) (by decide)

/-! ## C4: `unpackCrx` failure modes -/

/-- A 32-bit read returns `none` (Node throws a `RangeError`) exactly when
the buffer ends before `off + 4`. -/
theorem readUInt32LE_none_iff (b : Bytes) (off : Nat) :
    readUInt32LE b off = none ↔ b.length < off + 4 := by
  unfold readUInt32LE
  split <;> simp <;> omega

/-- C4 counterexample: the 4-byte buffer `"Cr24"` has the valid magic, yet
`unpackCrx` fails with the out-of-range read error — a failure mode
distinct from the three the claim declares exhaustive. -/
theorem unpackCrx_fourth_failure_mode :
    unpackCrx sampleExt [67, 114, 50, 52] = .error .rangeError ∧
    (JsError.rangeError ≠ JsError.invalidMagic ∧
      JsError.rangeError ≠ JsError.unsupportedVersion ∧
      JsError.rangeError ≠ JsError.invalidHeaderLength) := by
  decide

/-- C4 (amended).  `unpackCrx` fails with bad-magic iff the first 4 ASCII
bytes are not `"Cr24"`; with the out-of-range read error iff the magic is
valid but the buffer ends before the version field (length < 8) or, with
version 3, before the header-length field (length < 12); with
unsupported-version iff the 32-bit LE integer at offset 4 exists and is
not 3; with header-overflow iff `12 + headerLength` exceeds the input
length; with a protobuf-decode error iff the header-proof region fails to
decode; and on success it returns the header decoded from the region
`[12, 12+headerLength)` together with the payload region
`[12+headerLength, end)`. -/
theorem unpackCrx_characterization (ext : Externals) (b : Bytes) :
    (unpackCrx ext b = .error .invalidMagic ↔ asciiSlice b 0 4 ≠ CRX_MAGIC) ∧
    (unpackCrx ext b = .error .rangeError ↔
      (asciiSlice b 0 4 = CRX_MAGIC ∧
        (b.length < 8 ∨ (readUInt32LE b 4 = some 3 ∧ b.length < 12)))) ∧
    (unpackCrx ext b = .error .unsupportedVersion ↔
      (asciiSlice b 0 4 = CRX_MAGIC ∧ ∃ v, readUInt32LE b 4 = some v ∧ v ≠ 3)) ∧
    (unpackCrx ext b = .error .invalidHeaderLength ↔
      (asciiSlice b 0 4 = CRX_MAGIC ∧ readUInt32LE b 4 = some 3 ∧
        ∃ hl, readUInt32LE b 8 = some hl ∧ 12 + hl > b.length)) ∧
    (unpackCrx ext b = .error .protoDecodeError ↔
      (asciiSlice b 0 4 = CRX_MAGIC ∧ readUInt32LE b 4 = some 3 ∧
        ∃ hl, readUInt32LE b 8 = some hl ∧ 12 + hl ≤ b.length ∧
          ext.protoDecode ((b.drop 12).take hl) = none)) ∧
    (∀ h z, unpackCrx ext b = .ok (h, z) →
      asciiSlice b 0 4 = CRX_MAGIC ∧ readUInt32LE b 4 = some 3 ∧
        ∃ hl, readUInt32LE b 8 = some hl ∧ 12 + hl ≤ b.length ∧
          ext.protoDecode ((b.drop 12).take hl) = some h ∧ z = b.drop (12 + hl)) := by
  by_cases hm : asciiSlice b 0 4 = CRX_MAGIC
  · cases h4 : readUInt32LE b 4 with
    | none =>
      have hlen : b.length < 8 := by
        have := (readUInt32LE_none_iff b 4).mp h4
        omega
      have h8 : readUInt32LE b 8 = none := by
        rw [readUInt32LE_none_iff]
        omega
      simp [unpackCrx, hm, h4, h8, hlen]
    | some v =>
      have hlen8 : ¬ b.length < 8 := by
        intro hc
        have : readUInt32LE b 4 = none := by
          rw [readUInt32LE_none_iff]
          omega
        rw [this] at h4
        cases h4
      by_cases hv : v = 3
      · subst hv
        cases h8 : readUInt32LE b 8 with
        | none =>
          have hlen12 : b.length < 12 := by
            have := (readUInt32LE_none_iff b 8).mp h8
            omega
          simp [unpackCrx, hm, h4, h8, hlen8, hlen12]
        | some hl =>
          have hlen12 : ¬ b.length < 12 := by
            intro hc
            have : readUInt32LE b 8 = none := by
              rw [readUInt32LE_none_iff]
              omega
            rw [this] at h8
            cases h8
          by_cases hov : 12 + hl > b.length
          · simp [unpackCrx, hm, h4, h8, hov, hlen8, hlen12]
          · cases hpd : ext.protoDecode ((b.drop 12).take hl) with
            | none =>
              simp [unpackCrx, hm, h4, h8, hov, hpd, hlen8, hlen12]
              omega
            | some hdr =>
              simp [unpackCrx, hm, h4, h8, hov, hpd, hlen8, hlen12]
              omega
      · simp [unpackCrx, hm, h4, hv, hlen8]
  · simp [unpackCrx, hm]

/-- C4 (amended) witness: a valid 12-byte container with empty header and
empty payload parses under a decoder that accepts the empty region. -/
theorem unpackCrx_characterization_witness :
    unpackCrx { sampleExt with protoDecode := fun _ => some matchHeader }
        [67, 114, 50, 52, 3, 0, 0, 0, 0, 0, 0, 0] = .ok (matchHeader, []) ∧
    JsError.rangeError ≠ JsError.invalidMagic :=
  ⟨by decide,
    by
      have h := (unpackCrx_characterization
        { sampleExt with protoDecode := fun _ => some matchHeader }
        [67, 114, 50, 52, 3, 0, 0, 0, 0, 0, 0, 0]).1
      intro hc
      cases hc⟩

/-! ## C8: `processCrx` propagates failures and never trusts unverified data -/

/-- `Except` bind on an error short-circuits. -/
theorem exceptBind_error {ε α β : Type} (e : ε) (f : α → Except ε β) :
    (Except.error e >>= f : Except ε β) = Except.error e := rfl

/-- `Except` bind on a success applies the continuation. -/
theorem exceptBind_ok {ε α β : Type} (a : α) (f : α → Except ε β) :
    (Except.ok a >>= f : Except ε β) = f a := rfl

/-- `throw` in `Except` is `Except.error`. -/
theorem exceptThrow_eq {ε α : Type} (e : ε) :
    (throw e : Except ε α) = Except.error e := rfl

/-- C8.  With signature verification enabled, `processCrx` propagates the
first failing stage's error unchanged; a `false` verification result
becomes the signature-verification-failed error; and revocation data is
returned only when `verifySignature` returned `true` on the unpacked
container. -/
theorem processCrx_propagation (ext : Externals) (crx : Bytes) :
    (∀ e, unpackCrx ext crx = .error e → processCrx ext crx true = .error e) ∧
    (∀ h z e, unpackCrx ext crx = .ok (h, z) → verifySignature ext h z = .error e →
      processCrx ext crx true = .error e) ∧
    (∀ h z, unpackCrx ext crx = .ok (h, z) → verifySignature ext h z = .ok false →
      processCrx ext crx true = .error .signatureVerificationFailed) ∧
    (∀ d, processCrx ext crx true = .ok d →
      ∃ h z, unpackCrx ext crx = .ok (h, z) ∧ verifySignature ext h z = .ok true ∧
        ∃ cb, extractCrlSetFromZip ext z = .ok cb ∧
          parseCRLSet ext.jsonParse cb = .ok d) := by
  refine ⟨?_, ?_, ?_, ?_⟩
  · intro e hu
    simp [processCrx, hu, exceptBind_error]
  · intro h z e hu hv
    simp [processCrx, hu, hv, exceptBind_error, exceptBind_ok]
  · intro h z hu hv
    simp [processCrx, hu, hv, exceptBind_error, exceptBind_ok, exceptThrow_eq]
  · intro d hd
    cases hu : unpackCrx ext crx with
    | error e => simp [processCrx, hu, exceptBind_error] at hd
    | ok pr =>
      obtain ⟨h, z⟩ := pr
      cases hv : verifySignature ext h z with
      | error e =>
        simp [processCrx, hu, hv, exceptBind_error, exceptBind_ok] at hd
      | ok valid =>
        cases valid with
        | false =>
          simp [processCrx, hu, hv, exceptBind_error, exceptBind_ok,
            exceptThrow_eq] at hd
        | true =>
          cases he : extractCrlSetFromZip ext z with
          | error e =>
            simp [processCrx, hu, hv, he, exceptBind_error, exceptBind_ok] at hd
          | ok cb =>
            refine ⟨h, z, rfl, hv, cb, he, ?_⟩
            simpa [processCrx, hu, hv, he, exceptBind_error, exceptBind_ok] using hd

/-- C8 witness: an empty buffer fails at the container stage, and that
error surfaces from `processCrx` unchanged. -/
theorem processCrx_propagation_witness :
    processCrx sampleExt [] true = .error .invalidMagic :=
  (processCrx_propagation sampleExt []).1 JsError.invalidMagic (by decide)

/-! ## C2: the `loadLatestCRLSet` cache state machine -/

/-- C2 counterexample: at `now = NotAfter` exactly, the claim prescribes an
unconditional re-run of the full pipeline, but the code (`NotAfter < now`)
treats the cache as fresh: under the on-expiry policy the cached set is
returned with zero network fetches. -/
theorem loadLatest_expiry_boundary_counterexample :
    (100 : Int) ≥ sampleCRLSet.header.NotAfter ∧
    loadLatestCRLSet sampleExt true UpdateStrategy.onExpiry 100 (some sampleCRLSet) =
      { result := .ok sampleCRLSet, cache := some sampleCRLSet,
        fullFetches := 0, headerFetches := 0 } := by
  decide

/-- C2 (amended).  `loadLatestCRLSet` implements the cache state machine
with a strict hard-expiry comparison: from `Empty` it always runs the full
pipeline (caching the result on success, leaving the cache on an error);
from `Cached(set)` with `now > set.header.NotAfter` it re-runs the full
pipeline unconditionally, regardless of policy; from `Cached(set)`, not
expired (`now ≤ NotAfter`), under on-expiry it returns the cached set
unchanged with no network activity; under always it performs exactly one
remote-header fetch and re-runs the full pipeline iff the remote
`Sequence` is strictly greater than the cached one, otherwise returning
the cached set unchanged. -/
theorem loadLatest_state_machine (ext : Externals) (verify : Bool)
    (strategy : UpdateStrategy) (now : Int) (c : CRLSet) :
    (loadLatestCRLSet ext verify strategy now none =
      fetchAndProcessNewSet ext verify none) ∧
    ((fetchAndProcessNewSet ext verify none).fullFetches = 1 ∧
      (fetchAndProcessNewSet ext verify none).headerFetches = 0) ∧
    (now > c.header.NotAfter →
      loadLatestCRLSet ext verify strategy now (some c) =
        fetchAndProcessNewSet ext verify (some c)) ∧
    (now ≤ c.header.NotAfter → strategy = UpdateStrategy.onExpiry →
      loadLatestCRLSet ext verify strategy now (some c) =
        { result := .ok c, cache := some c, fullFetches := 0, headerFetches := 0 }) ∧
    (now ≤ c.header.NotAfter → strategy = UpdateStrategy.always →
      ext.remoteHeader.Sequence > c.header.Sequence →
      loadLatestCRLSet ext verify strategy now (some c) =
        { fetchAndProcessNewSet ext verify (some c) with headerFetches := 1 }) ∧
    (now ≤ c.header.NotAfter → strategy = UpdateStrategy.always →
      ext.remoteHeader.Sequence ≤ c.header.Sequence →
      loadLatestCRLSet ext verify strategy now (some c) =
        { result := .ok c, cache := some c, fullFetches := 0, headerFetches := 1 }) ∧
    (∀ h r, processCrx ext ext.download verify = .ok (h, r) →
      fetchAndProcessNewSet ext verify (some c) =
        { result := .ok (CRLSet.make ext h r), cache := some (CRLSet.make ext h r),
          fullFetches := 1, headerFetches := 0 }) ∧
    (∀ e, processCrx ext ext.download verify = .error e →
      fetchAndProcessNewSet ext verify (some c) =
        { result := .error e, cache := some c, fullFetches := 1, headerFetches := 0 }) := by
  refine ⟨rfl, ?_, ?_, ?_, ?_, ?_, ?_, ?_⟩
  · cases h : processCrx ext ext.download verify with
    | error e => simp [fetchAndProcessNewSet, h]
    | ok pr =>
      obtain ⟨hh, rr⟩ := pr
      simp [fetchAndProcessNewSet, h]
  · intro hexp
    have hlt : c.header.NotAfter < now := hexp
    simp [loadLatestCRLSet, hlt]
  · intro hnex hstrat
    have h1 : ¬ c.header.NotAfter < now := by omega
    simp [loadLatestCRLSet, h1, hstrat]
  · intro hnex hstrat hseq
    have h1 : ¬ c.header.NotAfter < now := by omega
    subst hstrat
    simp [loadLatestCRLSet, h1, hseq]
  · intro hnex hstrat hseq
    have h1 : ¬ c.header.NotAfter < now := by omega
    have h2 : ¬ ext.remoteHeader.Sequence > c.header.Sequence := by omega
    subst hstrat
    simp [loadLatestCRLSet, h1, h2]
  · intro h r hp
    simp [fetchAndProcessNewSet, hp]
  · intro e hp
    simp [fetchAndProcessNewSet, hp]

/-- C2 (amended) witness: a fresh cache under the on-expiry policy is
returned unchanged with zero fetches. -/
theorem loadLatest_state_machine_witness :
    loadLatestCRLSet sampleExt true UpdateStrategy.onExpiry 50 (some sampleCRLSet) =
      { result := .ok sampleCRLSet, cache := some sampleCRLSet,
        fullFetches := 0, headerFetches := 0 } :=
  (loadLatest_state_machine sampleExt true UpdateStrategy.onExpiry 50
    sampleCRLSet).2.2.2.1 (by decide) rfl

/-! ## C3, C10: the CRLSet binary parser -/

/-- `pure` in `Except` is `Except.ok`. -/
theorem exceptPure_eq {ε α : Type} (a : α) :
    (pure a : Except ε α) = Except.ok a := rfl

/-- Declarative grammar of a run of `count` serial entries: starting at
`off`, each entry is a 1-byte length followed by that many bytes, all
within the buffer; `endOff` is where the run ends. -/
inductive SerialsOk (b : Bytes) : Nat → Nat → Nat → Prop where
  | nil (off : Nat) : SerialsOk b off 0 off
  | cons (off count endOff : Nat) (h1 : off + 1 ≤ b.length)
      (h2 : off + 1 + b.getD off 0 ≤ b.length)
      (rest : SerialsOk b (off + 1 + b.getD off 0) count endOff) :
      SerialsOk b off (count + 1) endOff

/-- Declarative grammar of a run of `count` revocation-table entries:
each is a 32-byte SPKI hash, a 4-byte LE serial count, and that many
serial entries, all within the buffer. -/
inductive EntriesOk (b : Bytes) : Nat → Nat → Nat → Prop where
  | nil (off : Nat) : EntriesOk b off 0 off
  | cons (off count mid endOff : Nat) (h1 : off + 32 ≤ b.length)
      (h2 : off + 32 + 4 ≤ b.length)
      (hs : SerialsOk b (off + 32 + 4) (u32val b (off + 32)) mid)
      (rest : EntriesOk b mid count endOff) :
      EntriesOk b off (count + 1) endOff

/-- Soundness of the serial loop: a successful parse exhibits the
declared serial structure. -/
theorem serialsOk_of_parse (b : Bytes) :
    ∀ (count off : Nat) (acc : List Str) (endOff : Nat) (s : List Str),
    parseSerials b off count acc = .ok (endOff, s) → SerialsOk b off count endOff := by
  intro count
  induction count with
  | zero =>
    intro off acc endOff s h
    rw [parseSerials] at h
    cases h
    exact SerialsOk.nil off
  | succ n ih =>
    intro off acc endOff s h
    rw [parseSerials] at h
    by_cases g1 : off + 1 > b.length
    · simp only [if_pos g1] at h
      cases h
    · simp only [if_neg g1] at h
      by_cases g2 : off + 1 + b.getD off 0 > b.length
      · simp only [if_pos g2] at h
        cases h
      · simp only [if_neg g2] at h
        exact SerialsOk.cons off n endOff (by omega) (by omega) (ih _ _ _ _ h)

/-- Completeness of the serial loop: the declared serial structure makes
the parse succeed, ending at the declared offset. -/
theorem parse_of_serialsOk (b : Bytes) {off count endOff : Nat}
    (h : SerialsOk b off count endOff) :
    ∀ acc, ∃ s, parseSerials b off count acc = .ok (endOff, s) := by
  induction h with
  | nil off => intro acc; exact ⟨acc, rfl⟩
  | cons off count endOff h1 h2 rest ih =>
    intro acc
    rw [parseSerials]
    simp only [if_neg (show ¬ off + 1 > b.length by omega),
      if_neg (show ¬ off + 1 + b.getD off 0 > b.length by omega)]
    exact ih _

/-- Soundness of the entry loop: a successful parse exhibits the declared
entry structure. -/
theorem entriesOk_of_parse (b : Bytes) :
    ∀ (count off : Nat) (acc r : RevMap),
    parseEntries b off count acc = .ok r → ∃ endOff, EntriesOk b off count endOff := by
  intro count
  induction count with
  | zero => intro off acc r _; exact ⟨off, EntriesOk.nil off⟩
  | succ n ih =>
    intro off acc r h
    rw [parseEntries] at h
    by_cases g1 : off + 32 > b.length
    · simp only [if_pos g1] at h
      cases h
    · simp only [if_neg g1] at h
      by_cases g2 : off + 32 + 4 > b.length
      · simp only [if_pos g2] at h
        cases h
      · simp only [if_neg g2] at h
        cases hps : parseSerials b (off + 32 + 4) (u32val b (off + 32)) [] with
        | error e =>
          simp only [hps] at h
          cases h
        | ok pr =>
          obtain ⟨off2, s⟩ := pr
          simp only [hps] at h
          obtain ⟨endOff, hE⟩ := ih _ _ _ h
          exact ⟨endOff, EntriesOk.cons off n off2 endOff (by omega) (by omega)
            (serialsOk_of_parse b _ _ _ _ _ hps) hE⟩

/-- Completeness of the entry loop: the declared entry structure makes the
parse succeed. -/
theorem parse_of_entriesOk (b : Bytes) {off count endOff : Nat}
    (h : EntriesOk b off count endOff) :
    ∀ acc, ∃ r, parseEntries b off count acc = .ok r := by
  induction h with
  | nil off => intro acc; exact ⟨acc, rfl⟩
  | cons off count mid endOff h1 h2 hs rest ih =>
    intro acc
    obtain ⟨s, hps⟩ := parse_of_serialsOk b hs []
    rw [parseEntries]
    simp only [if_neg (show ¬ off + 32 > b.length by omega),
      if_neg (show ¬ off + 32 + 4 > b.length by omega), hps]
    exact ih _

/-- C3.  Each of the six declared boundaries of the CRLSet layout fails
with its own (and only its own) truncation error when the buffer ends
before it — in particular a 1-byte buffer fails at the header length, and
the 2-byte buffer `{headerLen: 0xFFFF}` with no content fails at the
header content — and the parse succeeds exactly when the JSON header
parses and the full declared structure (`NumParents` complete entries) is
present in the body. -/
theorem parseCRLSet_truncation (jsonParse : Bytes → Option CRLSetHeader) (b : Bytes) :
    (b.length < 2 → parseCRLSet jsonParse b = .error .truncatedHeaderLength) ∧
    (2 ≤ b.length → b.length < 2 + u16val b 0 →
      parseCRLSet jsonParse b = .error .truncatedHeaderContent) ∧
    (parseCRLSet jsonParse [0] = .error .truncatedHeaderLength ∧
      parseCRLSet jsonParse [255, 255] = .error .truncatedHeaderContent) ∧
    (∀ off count acc, off + 32 > b.length →
      parseEntries b off (count + 1) acc = .error .truncatedSpkiHash) ∧
    (∀ off count acc, off + 32 ≤ b.length → off + 32 + 4 > b.length →
      parseEntries b off (count + 1) acc = .error .truncatedSerialCount) ∧
    (∀ off count acc, off + 1 > b.length →
      parseSerials b off (count + 1) acc = .error .truncatedSerialLength) ∧
    (∀ off count acc, off + 1 ≤ b.length → off + 1 + b.getD off 0 > b.length →
      parseSerials b off (count + 1) acc = .error .truncatedSerialNumber) ∧
    ((∃ r, parseCRLSet jsonParse b = .ok r) ↔
      (∃ hdr, parseCRLSetHeader jsonParse b = .ok hdr ∧
        ∃ endOff, EntriesOk b (2 + u16val b 0) hdr.NumParents.toNat endOff)) := by
  refine ⟨?_, ?_, ⟨?_, ?_⟩, ?_, ?_, ?_, ?_, ?_⟩
  · intro h
    have hh : parseCRLSetHeader jsonParse b = .error .truncatedHeaderLength := by
      simp [parseCRLSetHeader, h]
    simp [parseCRLSet, hh, exceptBind_error]
  · intro h2 hlen
    have hh : parseCRLSetHeader jsonParse b = .error .truncatedHeaderContent := by
      have hn : ¬ b.length < 2 := by omega
      simp [parseCRLSetHeader, hn, hlen]
    simp [parseCRLSet, hh, exceptBind_error]
  · have hh : parseCRLSetHeader jsonParse [0] = .error .truncatedHeaderLength := by
      simp [parseCRLSetHeader]
    simp [parseCRLSet, hh, exceptBind_error]
  · have hh : parseCRLSetHeader jsonParse [255, 255] = .error .truncatedHeaderContent := by
      simp [parseCRLSetHeader, u16val]
    simp [parseCRLSet, hh, exceptBind_error]
  · intro off count acc h
    rw [parseEntries]
    simp only [if_pos h]
  · intro off count acc h1 h2
    rw [parseEntries]
    simp only [if_neg (show ¬ off + 32 > b.length by omega), if_pos h2]
  · intro off count acc h
    rw [parseSerials]
    simp only [if_pos h]
  · intro off count acc h1 h2
    rw [parseSerials]
    simp only [if_neg (show ¬ off + 1 > b.length by omega), if_pos h2]
  · constructor
    · rintro ⟨r, hr⟩
      cases hh : parseCRLSetHeader jsonParse b with
      | error e =>
        simp only [parseCRLSet, hh, exceptBind_error] at hr
        cases hr
      | ok hdr =>
        cases hpe : parseEntries b (2 + u16val b 0) hdr.NumParents.toNat [] with
        | error e =>
          simp only [parseCRLSet, hh, hpe, exceptBind_ok, exceptBind_error] at hr
          cases hr
        | ok m =>
          exact ⟨hdr, rfl, entriesOk_of_parse b _ _ _ _ hpe⟩
    · rintro ⟨hdr, hh, endOff, hE⟩
      obtain ⟨m, hpe⟩ := parse_of_entriesOk b hE []
      refine ⟨(hdr, m), ?_⟩
      simp only [parseCRLSet, hh, hpe, exceptBind_ok, exceptPure_eq]

/-- C3 witness: the 1-byte buffer fails at the header-length boundary. -/
theorem parseCRLSet_truncation_witness :
    parseCRLSet sampleExt.jsonParse [0] = .error .truncatedHeaderLength :=
  (parseCRLSet_truncation sampleExt.jsonParse [0]).1 (by decide)

/-- A CRLSet header declaring two revocation-table entries. -/
def dupHeader : CRLSetHeader :=
  { sampleHeader with NumParents := 2 }

/-- A JSON decoder mapping the empty header-content bytes to `dupHeader`. -/
def dupJson : Bytes → Option CRLSetHeader := fun bs =>
  if bs = [] then some dupHeader else none

/-- A CRLSet body with `headerLen = 0` and two entries carrying the same
all-zero 32-byte SPKI hash: the first with serial `aa`, the second with
serial `bb`. -/
def dupBuf : Bytes :=
  [0, 0] ++ List.replicate 32 0 ++ [1, 0, 0, 0, 1, 170]
    ++ List.replicate 32 0 ++ [1, 0, 0, 0, 1, 187]

/-- C10.  `Map.prototype.set` makes the last entry win: re-setting a key
replaces its value.  Concretely, a body whose two declared entries share
one SPKI hash still parses, the returned index maps that hash to the
serial set of the second entry only (the first entry's serial `aa` is
gone, not merged), and the index has 1 key although `NumParents = 2`. -/
theorem parseCRLSet_duplicate_spki :
    (∀ (m : RevMap) (k : Str) (v : List Str), mapGet (mapSet m k v) k = some v) ∧
    parseCRLSet dupJson dupBuf =
      .ok (dupHeader, [(List.replicate 64 '0', [['b', 'b']])]) ∧
    (dupHeader.NumParents = 2 ∧
      ([(List.replicate 64 '0', [['b', 'b']])] : RevMap).length = 1) ∧
    (['a', 'a'] : Str) ∉ ([['b', 'b']] : List Str) := by
  refine ⟨?_, by decide, by decide, by decide⟩
  intro m k v
  induction m with
  | nil => simp [mapSet, mapGet]
  | cons p rest ih =>
    obtain ⟨k', v'⟩ := p
    by_cases h : k' = k
    · simp [mapSet, mapGet, h]
    · simp [mapSet, mapGet, h, ih]
